import Mathlib

/-
Shallow embedding of the sports-team-manager persistence and query core.

Modelling conventions:
- ISO-8601 date strings are modelled by their timestamps (Nat); the JS
  conversion new Date(s).getTime() is order- and value-preserving on the
  ISO strings the app produces, so it becomes the identity here.
- JS numbers used as jersey numbers and comparator results are modelled
  as Int.
- Optional (possibly-undefined) fields are modelled as Option.
- JS string truthiness (the empty string is falsy) is modelled explicitly
  wherever the source relies on it.
- localStorage is modelled as a Store state: an availability flag (window
  or the medium may be missing or throwing) plus a cell that is absent,
  unparsable, or a parsed blob.  Nothing in the model throws; the
  try/catch fallbacks of the source become total branches.
- Array.prototype.sort with a consistent comparator is a stable sort and
  is modelled by List.mergeSort on the comparator-induced relation.
-/

/-- Player entity, from src/app/types/index (Player interface). -/
structure Player where
  id : String
  name : String
  email : Option String := none
  phone : Option String := none
  position : Option String := none
  jerseyNumber : Option Int := none
  isActive : Bool
  dateAdded : Nat
  notes : Option String := none
deriving DecidableEq, Repr

/-- Team entity, from src/app/types/index (Team interface). -/
structure Team where
  id : String
  name : String
  description : Option String := none
  coach : Option String := none
  season : Option String := none
  dateCreated : Nat
  players : List Player
  isActive : Bool
deriving DecidableEq, Repr

/-- Derived statistics, from src/app/types/index (TeamStats interface).
The positionCounts record is modelled as a total function with default 0,
present only when the source sets the optional field. -/
structure TeamStats where
  totalPlayers : Nat
  activePlayers : Nat
  inactivePlayers : Nat
  positionCounts : Option (String → Nat) := none

/-- Partial of Player (TS Partial, fields possibly absent). -/
structure PartialPlayer where
  id : Option String := none
  name : Option String := none
  email : Option String := none
  phone : Option String := none
  position : Option String := none
  jerseyNumber : Option Int := none
  isActive : Option Bool := none
  dateAdded : Option Nat := none
  notes : Option String := none
deriving DecidableEq, Repr

/-- Partial of Team (TS Partial, fields possibly absent). -/
structure PartialTeam where
  id : Option String := none
  name : Option String := none
  description : Option String := none
  coach : Option String := none
  season : Option String := none
  dateCreated : Option Nat := none
  players : Option (List Player) := none
  isActive : Option Bool := none
deriving DecidableEq, Repr

/-- Validation result shape returned by both validators in
src/app/lib/teams.ts. -/
structure ValidationResult where
  isValid : Bool
  errors : List String
deriving DecidableEq, Repr

/-- calculateTeamStats, from src/app/lib/teams.ts lines 7-25.  The JS
object positionCounts with (m[pos] or 0) + 1 updates is modelled as a
function String to Nat with default 0; the truthiness guard
(if player.position) skips both undefined and the empty string. -/
def calculateTeamStats (team : Team) : TeamStats :=
  { totalPlayers := team.players.length
    activePlayers := (team.players.filter (fun p => p.isActive)).length
    inactivePlayers := (team.players.filter (fun p => !p.isActive)).length
    positionCounts :=
      if team.players.length > 0 then
        some (team.players.foldl
          (fun m p =>
            match p.position with
            | some pos =>
                if pos != "" then (fun s => if s = pos then m s + 1 else m s) else m
            | none => m)
          (fun _ => 0))
      else none }

/-- JS String.prototype.trim, modelled on the character list (the
standard library trim does not reduce in the kernel). -/
def jsTrim (s : String) : String :=
  String.mk (((s.data.dropWhile Char.isWhitespace).reverse.dropWhile Char.isWhitespace).reverse)

/-- JS String.prototype.toLowerCase, modelled characterwise. -/
def jsToLower (s : String) : String :=
  String.mk (s.data.map Char.toLower)

/-- isValidEmail, from src/app/lib/teams.ts lines 225-228.  The regex
demands shape local at domain dot tld: a nonempty run of characters that
are neither whitespace nor the at sign, one at sign, then a nonempty
such run containing a dot at an interior index. -/
def isValidEmail (email : String) : Bool :=
  let cs := email.data
  (List.range cs.length).any (fun i =>
    (cs.getD i ' ' == '@') &&
    decide (0 < i) &&
    (cs.take i).all (fun c => !c.isWhitespace && !(c == '@')) &&
    decide (i + 1 < cs.length) &&
    ((cs.drop (i + 1)).all (fun c => !c.isWhitespace && !(c == '@'))) &&
    ((List.range (cs.drop (i + 1)).length).any (fun j =>
      decide (1 ≤ j) && decide (j + 1 < (cs.drop (i + 1)).length) &&
      ((cs.drop (i + 1)).getD j ' ' == '.'))))

/-- isValidPhone, from src/app/lib/teams.ts lines 230-234: at least 10
characters, all of them digits, whitespace, dash, parenthesis, plus or
dot. -/
def isValidPhone (phone : String) : Bool :=
  phone.data.length ≥ 10 &&
  phone.data.all (fun c =>
    c.isDigit || c.isWhitespace || c == '-' || c == '(' || c == ')' || c == '+' || c == '.')

/-- validatePlayer, from src/app/lib/teams.ts lines 54-97.  Errors are
collected in source order; JS truthiness guards on the optional string
fields are explicit. -/
def validatePlayer (player : PartialPlayer) (existingPlayers : List Player) : ValidationResult :=
  let e1 : List String :=
    match player.name with
    | none => ["Player name is required"]
    | some s => if jsTrim s = "" then ["Player name is required"] else []
  let e2 : List String :=
    match player.name with
    | some s => if s != "" && (jsTrim s).data.length > 100 then
        ["Player name must be 100 characters or less"] else []
    | none => []
  let e3 : List String :=
    match player.email with
    | some e => if e != "" && !isValidEmail e then ["Invalid email format"] else []
    | none => []
  let e4 : List String :=
    match player.phone with
    | some ph => if ph != "" && !isValidPhone ph then ["Invalid phone number format"] else []
    | none => []
  let e5 : List String :=
    match player.jerseyNumber with
    | none => []
    | some n =>
        (if n < 0 || n > 99 then ["Jersey number must be between 0 and 99"] else []) ++
        (match existingPlayers.find? (fun q =>
            (player.id != some q.id) && (q.jerseyNumber == some n) && q.isActive) with
         | some duplicate =>
             ["Jersey number " ++ toString n ++ " is already taken by " ++ duplicate.name]
         | none => [])
  let e6 : List String :=
    match player.notes with
    | some s => if s != "" && s.data.length > 1000 then
        ["Notes must be 1000 characters or less"] else []
    | none => []
  let errors := e1 ++ e2 ++ e3 ++ e4 ++ e5 ++ e6
  { isValid := errors.isEmpty, errors := errors }

/-- Sort key argument of sortPlayers. -/
inductive SortKey where
  | name
  | position
  | jerseyNumber
  | dateAdded
deriving DecidableEq, Repr

/-- Sort order argument of sortPlayers. -/
inductive SortOrder where
  | asc
  | desc
deriving DecidableEq, Repr

/-- JS localeCompare modelled as the sign of lexicographic string
comparison. -/
def localeCompare (a b : String) : Int :=
  match compare a b with
  | Ordering.lt => -1
  | Ordering.eq => 0
  | Ordering.gt => 1

/-- The comparison value computed inside the sortPlayers comparator, from
src/app/lib/teams.ts lines 122-141: a missing jerseyNumber becomes the
sentinel 999, a missing position the empty string, dateAdded compares as
timestamps. -/
def sortKeyCmp (sortBy : SortKey) (a b : Player) : Int :=
  match sortBy with
  | SortKey.name => localeCompare a.name b.name
  | SortKey.position => localeCompare (a.position.getD "") (b.position.getD "")
  | SortKey.jerseyNumber => (a.jerseyNumber.getD 999) - (b.jerseyNumber.getD 999)
  | SortKey.dateAdded => (a.dateAdded : Int) - (b.dateAdded : Int)

/-- The full comparator of sortPlayers: descending order only negates the
comparison value (line 143 of src/app/lib/teams.ts). -/
def playerComparator (sortBy : SortKey) (sortOrder : SortOrder) (a b : Player) : Int :=
  if sortOrder = SortOrder.desc then -(sortKeyCmp sortBy a b) else sortKeyCmp sortBy a b

/-- sortPlayers, from src/app/lib/teams.ts lines 116-145; the stable JS
sort with a comparator is modelled by mergeSort on the induced relation. -/
def sortPlayers (players : List Player) (sortBy : SortKey) (sortOrder : SortOrder) : List Player :=
  players.mergeSort (fun a b => decide (playerComparator sortBy sortOrder a b ≤ 0))

/-- Filter argument of filterPlayers. -/
structure PlayerFilters where
  isActive : Option Bool := none
  position : Option String := none
  searchTerm : Option String := none
deriving DecidableEq, Repr

/-- Prefix test on character lists (helper for substring search). -/
def isPrefixList (needle hay : List Char) : Bool :=
  match needle, hay with
  | [], _ => true
  | _ :: _, [] => false
  | a :: as, b :: bs => a == b && isPrefixList as bs

/-- Substring occurrence test on character lists. -/
def hasInfix (hay needle : List Char) : Bool :=
  match hay with
  | [] => needle.isEmpty
  | _ :: tl => isPrefixList needle hay || hasInfix tl needle

/-- JS String.prototype.includes. -/
def jsIncludes (s sub : String) : Bool :=
  hasInfix s.data sub.data

/-- The search predicate applied inside filterPlayers (lines 167-172 of
src/app/lib/teams.ts) to the already lowercased and trimmed term: the
optional fields participate only when truthy (present and nonempty). -/
def searchTermPred (term : String) (p : Player) : Bool :=
  jsIncludes (jsToLower p.name) term ||
  (match p.email with
   | some e => e != "" && jsIncludes (jsToLower e) term
   | none => false) ||
  (match p.position with
   | some pos => pos != "" && jsIncludes (jsToLower pos) term
   | none => false) ||
  (match p.notes with
   | some nt => nt != "" && jsIncludes (jsToLower nt) term
   | none => false)

/-- filterPlayers, from src/app/lib/teams.ts lines 150-176: three
sequential filters, the position and searchTerm ones guarded by JS
truthiness, the search term lowercased and trimmed before matching. -/
def filterPlayers (players : List Player) (filters : PlayerFilters) : List Player :=
  let f1 :=
    match filters.isActive with
    | some b => players.filter (fun p => p.isActive == b)
    | none => players
  let f2 :=
    match filters.position with
    | some pos => if pos != "" then f1.filter (fun p => p.position == some pos) else f1
    | none => f1
  match filters.searchTerm with
  | some t => if t != "" then f2.filter (searchTermPred (jsTrim (jsToLower t))) else f2
  | none => f2

/-- The takenNumbers set built by getAvailableJerseyNumbers (lines
182-186 of src/app/lib/teams.ts): the jersey numbers of active players
that have one. -/
def takenNumbers (team : Team) : List Int :=
  (team.players.filter (fun p => p.isActive && p.jerseyNumber.isSome)).filterMap
    (fun p => p.jerseyNumber)

/-- getAvailableJerseyNumbers, from src/app/lib/teams.ts lines 181-196:
keep the integers 1..maxNumber not taken (the loop starts at i = 1). -/
def getAvailableJerseyNumbers (team : Team) (maxNumber : Nat) : List Int :=
  ((List.range' 1 maxNumber).map (fun i : Nat => (i : Int))).filter
    (fun i => !((takenNumbers team).contains i))

/-- The persisted blob, from src/app/types/index (StorageData interface);
lastUpdated is a timestamp. -/
structure StorageData where
  teams : List Team
  lastUpdated : Nat
deriving DecidableEq, Repr

namespace Storage

/-- The state of the one localStorage key: absent, present but
unparsable, or a parsed blob. -/
inductive Cell where
  | absent
  | corrupt
  | blob (data : StorageData)
deriving DecidableEq, Repr

/-- The backing medium: available says whether window exists and
localStorage operations succeed (a throwing getItem/setItem is modelled
as unavailable); cell is the stored value. -/
structure Store where
  available : Bool
  cell : Cell
deriving DecidableEq, Repr

/-- getStorageData, from src/app/lib/storage.ts lines 7-22: with no
window, a missing key, or unparsable content the empty collection is
returned (the catch branch); now stands for new Date().toISOString(). -/
def getStorageData (st : Store) (now : Nat) : StorageData :=
  if st.available then
    match st.cell with
    | Cell.blob d => d
    | _ => { teams := [], lastUpdated := now }
  else { teams := [], lastUpdated := now }

/-- saveStorageData, from src/app/lib/storage.ts lines 24-33: a no-op
without a window or on a throwing setItem; otherwise stores the blob
with lastUpdated refreshed to now. -/
def saveStorageData (st : Store) (now : Nat) (data : StorageData) : Store :=
  if st.available then
    { available := true, cell := Cell.blob { teams := data.teams, lastUpdated := now } }
  else st

/-- getAllTeams, from src/app/lib/storage.ts lines 36-39. -/
def getAllTeams (st : Store) (now : Nat) : List Team :=
  (getStorageData st now).teams

/-- getTeamById, from src/app/lib/storage.ts lines 41-44. -/
def getTeamById (st : Store) (now : Nat) (id : String) : Option Team :=
  (getAllTeams st now).find? (fun team => team.id == id)

/-- The upsert on the team list performed by saveTeam (lines 48-54 of
src/app/lib/storage.ts): replace the first record with a matching id,
else append. -/
def saveTeamList (teams : List Team) (team : Team) : List Team :=
  match teams.findIdx? (fun t => t.id == team.id) with
  | some i => teams.set i team
  | none => teams ++ [team]

/-- saveTeam, from src/app/lib/storage.ts lines 46-57. -/
def saveTeam (st : Store) (now : Nat) (team : Team) : Store :=
  let data := getStorageData st now
  saveStorageData st now { teams := saveTeamList data.teams team, lastUpdated := data.lastUpdated }

/-- deleteTeam, from src/app/lib/storage.ts lines 59-63: filters the
collection and writes it back; no existence check and no return value. -/
def deleteTeam (st : Store) (now : Nat) (id : String) : Store :=
  let data := getStorageData st now
  saveStorageData st now
    { teams := data.teams.filter (fun team => !(team.id == id)), lastUpdated := data.lastUpdated }

/-- updatePlayerInTeam, from src/app/lib/storage.ts lines 75-85: false
with the store untouched when the team or player is missing, else the
player record is replaced and the team saved. -/
def updatePlayerInTeam (st : Store) (now : Nat) (teamId playerId : String)
    (updatedPlayer : Player) : Bool × Store :=
  match getTeamById st now teamId with
  | none => (false, st)
  | some team =>
      match team.players.findIdx? (fun p => p.id == playerId) with
      | none => (false, st)
      | some i =>
          (true, saveTeam st now { team with players := team.players.set i updatedPlayer })

end Storage

/-- The merge of a partial update over an existing team performed by the
JS spread in updateTeam (line 78 of src/unnamed/part_003): every field
present in the partial overrides the stored one, the rest are kept. -/
def mergeTeam (existing : Team) (updates : PartialTeam) : Team :=
  { id := updates.id.getD existing.id
    name := updates.name.getD existing.name
    description := (updates.description).orElse (fun _ => existing.description)
    coach := (updates.coach).orElse (fun _ => existing.coach)
    season := (updates.season).orElse (fun _ => existing.season)
    dateCreated := updates.dateCreated.getD existing.dateCreated
    players := updates.players.getD existing.players
    isActive := updates.isActive.getD existing.isActive }

/-- The merge of a partial update over an existing player performed by
the JS spread in updatePlayer (line 133 of src/unnamed/part_003). -/
def mergePlayer (existing : Player) (updates : PartialPlayer) : Player :=
  { id := updates.id.getD existing.id
    name := updates.name.getD existing.name
    email := (updates.email).orElse (fun _ => existing.email)
    phone := (updates.phone).orElse (fun _ => existing.phone)
    position := (updates.position).orElse (fun _ => existing.position)
    jerseyNumber := (updates.jerseyNumber).orElse (fun _ => existing.jerseyNumber)
    isActive := updates.isActive.getD existing.isActive
    dateAdded := updates.dateAdded.getD existing.dateAdded
    notes := (updates.notes).orElse (fun _ => existing.notes) }

namespace Ctx

/-- State of the TeamContext provider (src/unnamed/part_003): the Store
plus the in-memory teams mirror held in React state. -/
structure CtxState where
  store : Storage.Store
  teams : List Team
deriving DecidableEq, Repr

/-- updateTeam, from src/unnamed/part_003 lines 74-86: load the current
record from the Store, merge, persist, replace the matching in-memory
entries; null when the Store has no such id. -/
def updateTeam (s : CtxState) (now : Nat) (id : String) (updates : PartialTeam) :
    Option Team × CtxState :=
  match Storage.getTeamById s.store now id with
  | none => (none, s)
  | some existingTeam =>
      let updatedTeam := mergeTeam existingTeam updates
      (some updatedTeam,
       { store := Storage.saveTeam s.store now updatedTeam
         teams := s.teams.map (fun team => if team.id == id then updatedTeam else team) })

/-- deleteTeam, from src/unnamed/part_003 lines 88-97: delete from the
Store, filter the mirror, return true; the catch branch that would
return false is unreachable because no Store operation in this model
throws (storage deleteTeam silently filters whether or not the id
exists). -/
def deleteTeam (s : CtxState) (now : Nat) (id : String) : Bool × CtxState :=
  (true,
   { store := Storage.deleteTeam s.store now id
     teams := s.teams.filter (fun team => !(team.id == id)) })

/-- updatePlayer, from src/unnamed/part_003 lines 126-151: the team and
existing player are read from the in-memory mirror, the merge persisted
through updatePlayerInTeam, then mirrored. -/
def updatePlayer (s : CtxState) (now : Nat) (teamId playerId : String)
    (updates : PartialPlayer) : Option Player × CtxState :=
  match s.teams.find? (fun team => team.id == teamId) with
  | none => (none, s)
  | some team =>
      match team.players.find? (fun p => p.id == playerId) with
      | none => (none, s)
      | some existingPlayer =>
          let updatedPlayer := mergePlayer existingPlayer updates
          match Storage.updatePlayerInTeam s.store now teamId playerId updatedPlayer with
          | (false, st2) => (none, { store := st2, teams := s.teams })
          | (true, st2) =>
              (some updatedPlayer,
               { store := st2
                 teams := s.teams.map (fun team =>
                   if team.id == teamId then
                     { team with players := team.players.map (fun p =>
                         if p.id == playerId then updatedPlayer else p) }
                   else team) })

end Ctx

/-! Concrete fixtures used by witnesses and counterexamples. -/

/-- A roster like the worked example of the spec: two active Forwards and
one inactive Defense player. -/
def exStatsTeam : Team :=
  { id := "t1", name := "T", dateCreated := 0, isActive := true,
    players :=
      [ { id := "p1", name := "A", position := some "Forward", isActive := true, dateAdded := 0 },
        { id := "p2", name := "B", position := some "Forward", isActive := true, dateAdded := 0 },
        { id := "p3", name := "C", position := some "Defense", isActive := false, dateAdded := 0 } ] }

/-! Helper lemmas. -/

/-- Filtering by a predicate and by its negation partitions a list. -/
theorem length_filter_bool_partition {α : Type} (l : List α) (p : α → Bool) :
    (l.filter p).length + (l.filter (fun a => !(p a))).length = l.length := by
  induction l with
  | nil => rfl
  | cons x xs ih => cases hx : p x <;> simp [List.filter_cons, hx] <;> omega

/-- Evaluation of the position-count fold of calculateTeamStats at a
nonempty key: it counts the players carrying exactly that position. -/
theorem foldl_posCounts_apply (players : List Player) (m : String → Nat) (s : String)
    (hs : s ≠ "") :
    (players.foldl
      (fun m p =>
        match p.position with
        | some pos =>
            if pos != "" then (fun t => if t = pos then m t + 1 else m t) else m
        | none => m) m) s
    = m s + (players.filter (fun p => p.position == some s)).length := by
  induction players generalizing m with
  | nil => simp
  | cons p ps ih =>
    rw [List.foldl_cons, ih, List.filter_cons]
    cases hpos : p.position with
    | none => simp [hpos]
    | some pos =>
      by_cases hpe : pos = ""
      · subst hpe
        have hne : (some "" == some s) = false := by
          rw [beq_eq_false_iff_ne]
          exact fun h => hs (Option.some.inj h).symm
        simp [hpos, hne]
      · by_cases hps : pos = s
        · subst hps
          simp [hpos, hpe]
          omega
        · have hne : (some pos == some s) = false := by
            rw [beq_eq_false_iff_ne]
            exact fun h => hps (Option.some.inj h)
          have hsp : ¬ (s = pos) := fun h => hps h.symm
          simp [hpos, hpe, hne, hsp]

/-- Evaluation of the position-count fold at the empty key: the
truthiness guard never books a player under the empty position. -/
theorem foldl_posCounts_empty (players : List Player) (m : String → Nat) :
    (players.foldl
      (fun m p =>
        match p.position with
        | some pos =>
            if pos != "" then (fun t => if t = pos then m t + 1 else m t) else m
        | none => m) m) ""
    = m "" := by
  induction players generalizing m with
  | nil => simp
  | cons p ps ih =>
    rw [List.foldl_cons, ih]
    cases hpos : p.position with
    | none => simp [hpos]
    | some pos =>
      by_cases hpe : pos = ""
      · subst hpe; simp [hpos]
      · have hep : ¬ ("" = pos) := fun h => hpe h.symm
        simp [hpos, hpe, hep]

/-- C7: whenever the backing medium is unavailable, the stored key is
absent, or the stored content is unparsable, the Store read operations
return the empty team collection (and, being total functions, they throw
nothing to the caller). -/
theorem getStorageData_fail_soft (st : Storage.Store) (now : Nat)
    (h : st.available = false ∨ st.cell = Storage.Cell.absent ∨ st.cell = Storage.Cell.corrupt) :
    Storage.getStorageData st now = { teams := [], lastUpdated := now } ∧
    Storage.getAllTeams st now = [] := by
  obtain ⟨av, cell⟩ := st
  rcases h with h | h | h
  · subst h; cases cell <;> simp [Storage.getStorageData, Storage.getAllTeams]
  · subst h; cases av <;> simp [Storage.getStorageData, Storage.getAllTeams]
  · subst h; cases av <;> simp [Storage.getStorageData, Storage.getAllTeams]

/-- Witness for C7: a present but unparsable blob reads as the empty
collection. -/
theorem getStorageData_fail_soft_witness :
    Storage.getStorageData { available := true, cell := Storage.Cell.corrupt } 5
        = { teams := [], lastUpdated := 5 } ∧
    Storage.getAllTeams { available := true, cell := Storage.Cell.corrupt } 5 = [] :=
  getStorageData_fail_soft _ 5 (Or.inr (Or.inr rfl))

/-- C9: calculateTeamStats returns the player count, a partition into
active and inactive players, and a position-count map that is present
exactly when the team has at least one player and counts, per nonempty
position key, exactly the players carrying that position (nothing is
ever booked under the falsy empty position). -/
theorem calculateTeamStats_spec (team : Team) :
    (calculateTeamStats team).totalPlayers = team.players.length ∧
    (calculateTeamStats team).activePlayers + (calculateTeamStats team).inactivePlayers
        = (calculateTeamStats team).totalPlayers ∧
    ((calculateTeamStats team).positionCounts.isSome ↔ 0 < team.players.length) ∧
    (∀ s : String, s ≠ "" →
      (calculateTeamStats team).positionCounts.map (fun f => f s)
        = if 0 < team.players.length
          then some ((team.players.filter (fun p => p.position == some s)).length)
          else none) ∧
    (calculateTeamStats team).positionCounts.map (fun f => f "")
        = if 0 < team.players.length then some 0 else none := by
  unfold calculateTeamStats
  refine ⟨rfl, ?_, ?_, ?_, ?_⟩
  · exact length_filter_bool_partition team.players (fun p => p.isActive)
  · by_cases h0 : team.players.length > 0 <;> simp [h0]
  · intro s hs
    by_cases h0 : team.players.length > 0
    · rw [if_pos h0, Option.map_some', foldl_posCounts_apply team.players _ s hs, if_pos h0]
      simp
    · rw [if_neg h0, if_neg h0]; rfl
  · by_cases h0 : team.players.length > 0
    · rw [if_pos h0, Option.map_some', foldl_posCounts_empty, if_pos h0]
    · rw [if_neg h0, if_neg h0]; rfl

/-- Witness for C9: on the example roster the map is present and books
two players under Forward. -/
theorem calculateTeamStats_spec_witness :
    ("Forward" : String) ≠ "" ∧
    (calculateTeamStats exStatsTeam).positionCounts.map (fun f => f "Forward")
      = if 0 < exStatsTeam.players.length
        then some ((exStatsTeam.players.filter (fun p => p.position == some "Forward")).length)
        else none :=
  ⟨by decide, (calculateTeamStats_spec exStatsTeam).2.2.2.1 "Forward" (by decide)⟩

/-- C10: getAvailableJerseyNumbers returns exactly the integers 1 to
maxNumber not worn by an active player; 0 is never reported, although
the validator accepts jersey number 0. -/
theorem getAvailableJerseyNumbers_spec (team : Team) (maxNumber : Nat) (hmax : 1 ≤ maxNumber) :
    (∀ n : Int, n ∈ getAvailableJerseyNumbers team maxNumber ↔
      (1 ≤ n ∧ n ≤ (maxNumber : Int) ∧
        ¬ ∃ p ∈ team.players, p.isActive = true ∧ p.jerseyNumber = some n)) ∧
    (0 : Int) ∉ getAvailableJerseyNumbers team maxNumber ∧
    (validatePlayer { name := some "A", jerseyNumber := some 0 } []).isValid = true := by
  have htaken : ∀ n : Int, n ∈ takenNumbers team ↔
      ∃ p ∈ team.players, p.isActive = true ∧ p.jerseyNumber = some n := by
    intro n
    unfold takenNumbers
    rw [List.mem_filterMap]
    constructor
    · rintro ⟨p, hpf, hjer⟩
      rw [List.mem_filter, Bool.and_eq_true] at hpf
      exact ⟨p, hpf.1, hpf.2.1, hjer⟩
    · rintro ⟨p, hp, hact, hjer⟩
      refine ⟨p, ?_, hjer⟩
      rw [List.mem_filter, Bool.and_eq_true]
      exact ⟨hp, hact, by rw [hjer]; rfl⟩
  have hrange : ∀ n : Int, n ∈ (List.range' 1 maxNumber).map (fun i : Nat => (i : Int)) ↔
      1 ≤ n ∧ n ≤ (maxNumber : Int) := by
    intro n
    rw [List.mem_map]
    constructor
    · rintro ⟨i, hi, rfl⟩
      rw [List.mem_range'] at hi
      obtain ⟨j, hj, rfl⟩ := hi
      constructor <;> (push_cast; omega)
    · rintro ⟨h1, h2⟩
      refine ⟨n.toNat, ?_, by omega⟩
      rw [List.mem_range']
      exact ⟨n.toNat - 1, by omega, by omega⟩
  have hmem : ∀ n : Int, n ∈ getAvailableJerseyNumbers team maxNumber ↔
      (1 ≤ n ∧ n ≤ (maxNumber : Int) ∧
        ¬ ∃ p ∈ team.players, p.isActive = true ∧ p.jerseyNumber = some n) := by
    intro n
    unfold getAvailableJerseyNumbers
    rw [List.mem_filter]
    have hcont : ((fun i => !((takenNumbers team).contains i)) n = true) ↔
        ¬ n ∈ takenNumbers team := by
      simp [List.contains]
    rw [hcont, htaken, hrange]
    tauto
  refine ⟨hmem, ?_, by decide⟩
  intro h0
  have := (hmem 0).mp h0
  omega

/-- Witness for C10: with maxNumber 4 on the example roster, 0 is not
among the available numbers. -/
theorem getAvailableJerseyNumbers_spec_witness :
    (1 ≤ 4) ∧ (0 : Int) ∉ getAvailableJerseyNumbers exStatsTeam 4 :=
  ⟨by decide, (getAvailableJerseyNumbers_spec exStatsTeam 4 (by decide)).2.1⟩

/-- C2: for a player record whose other fields pass validation and whose
jerseyNumber n is in range, validatePlayer fails exactly when some
existing player with a different id is active and wears the same number;
an inactive holder raises no error and a player never conflicts with
their own id. -/
theorem validatePlayer_conflict_iff (p : PartialPlayer) (existing : List Player)
    (nm : String) (n : Int)
    (hnm : p.name = some nm) (h1 : jsTrim nm ≠ "") (h2 : (jsTrim nm).data.length ≤ 100)
    (he : p.email = none) (hph : p.phone = none) (hno : p.notes = none)
    (hj : p.jerseyNumber = some n) (h3 : 0 ≤ n) (h4 : n ≤ 99) :
    (validatePlayer p existing).isValid = false ↔
      ∃ q ∈ existing, q.isActive = true ∧ q.jerseyNumber = some n ∧ p.id ≠ some q.id := by
  have hlen : ¬ ((jsTrim nm).data.length > 100) := by omega
  have herr : (validatePlayer p existing).errors
      = (match existing.find? (fun q =>
            (p.id != some q.id) && (q.jerseyNumber == some n) && q.isActive) with
         | some duplicate =>
             ["Jersey number " ++ toString n ++ " is already taken by " ++ duplicate.name]
         | none => []) := by
    unfold validatePlayer
    rw [hnm, he, hph, hno, hj]
    dsimp only
    rw [if_neg h1]
    have hc2 : ((nm != "") && decide ((jsTrim nm).data.length > 100)) = false := by
      have hd : decide ((jsTrim nm).data.length > 100) = false := by
        simp
        exact h2
      rw [hd, Bool.and_false]
    have hc5 : (decide (n < 0) || decide (n > 99)) = false := by
      simp; omega
    rw [hc2, hc5]
    simp
  have hvalid : (validatePlayer p existing).isValid
      = (validatePlayer p existing).errors.isEmpty := rfl
  rw [hvalid, herr]
  cases hf : existing.find? (fun q =>
      (p.id != some q.id) && (q.jerseyNumber == some n) && q.isActive) with
  | none =>
    rw [List.find?_eq_none] at hf
    simp only [List.isEmpty_nil]
    constructor
    · intro habs; cases habs
    · rintro ⟨q, hq, hact, hjer, hid⟩
      exact absurd (by simp [bne_iff_ne, hid, hjer, hact]) (hf q hq)
  | some d =>
    have hd := List.find?_some hf
    have hdm := List.mem_of_find?_eq_some hf
    rw [Bool.and_eq_true, Bool.and_eq_true] at hd
    obtain ⟨⟨hid, hjer⟩, hact⟩ := hd
    simp only [List.isEmpty_cons]
    constructor
    · intro _
      exact ⟨d, hdm, hact, by simpa using hjer, by simpa using hid⟩
    · intro _; trivial

/-- Active and inactive players from the worked example: P1 active with
number 10, P2 inactive with the same number. -/
def exJerseyP1 : Player :=
  { id := "p1", name := "P1", jerseyNumber := some 10, isActive := true, dateAdded := 0 }

/-- Inactive holder of number 10. -/
def exJerseyP2 : Player :=
  { id := "p2", name := "P2", jerseyNumber := some 10, isActive := false, dateAdded := 0 }

/-- A new player (no id yet) asking for number 10. -/
def exNewPlayer : PartialPlayer := { name := some "New", jerseyNumber := some 10 }

/-- Witness for C2: validating the new player against the roster holding
an active P1 with number 10 fails. -/
theorem validatePlayer_conflict_iff_witness :
    (validatePlayer exNewPlayer [exJerseyP1, exJerseyP2]).isValid = false :=
  (validatePlayer_conflict_iff exNewPlayer [exJerseyP1, exJerseyP2] "New" 10
      rfl (by decide) (by decide) rfl rfl rfl rfl (by decide) (by decide)).mpr
    ⟨exJerseyP1, by simp, by decide, by decide, by decide⟩

/-- Replacing at the head is skipped when the head does not match: the
upsert recurses past non-matching records. -/
theorem saveTeamList_cons_ne (x : Team) (xs : List Team) (t : Team)
    (hx : (x.id == t.id) = false) :
    Storage.saveTeamList (x :: xs) t = x :: Storage.saveTeamList xs t := by
  unfold Storage.saveTeamList
  rw [List.findIdx?_cons, hx]
  simp only [Bool.false_eq_true, if_false, List.findIdx?_succ]
  cases h : xs.findIdx? (fun u => u.id == t.id) with
  | none => simp [h]
  | some i => simp [h]

/-- After the upsert, looking up the saved id finds the saved record. -/
theorem find?_saveTeamList (teams : List Team) (t : Team) :
    (Storage.saveTeamList teams t).find? (fun u => u.id == t.id) = some t := by
  induction teams with
  | nil => simp [Storage.saveTeamList, List.find?]
  | cons x xs ih =>
    by_cases hx : (x.id == t.id) = true
    · unfold Storage.saveTeamList
      rw [List.findIdx?_cons, hx]
      simp [List.find?]
    · have hx2 := eq_false_of_ne_true hx
      rw [saveTeamList_cons_ne x xs t hx2]
      rw [List.find?_cons_of_neg _ (by simp [hx2])]
      exact ih

/-- When no record matches, the upsert appends. -/
theorem saveTeamList_append_of_no_match (teams : List Team) (t : Team)
    (h : ∀ u ∈ teams, (u.id == t.id) = false) :
    Storage.saveTeamList teams t = teams ++ [t] := by
  unfold Storage.saveTeamList
  have hnone : teams.findIdx? (fun u => u.id == t.id) = none := by
    rw [List.findIdx?_eq_none_iff]; exact h
  rw [hnone]

/-- When a record matches, the upsert keeps the collection length. -/
theorem length_saveTeamList_of_match (teams : List Team) (t : Team)
    (h : ∃ u ∈ teams, u.id = t.id) :
    (Storage.saveTeamList teams t).length = teams.length := by
  unfold Storage.saveTeamList
  obtain ⟨u, hu, hid⟩ := h
  cases hf : teams.findIdx? (fun v => v.id == t.id) with
  | none =>
    rw [List.findIdx?_eq_none_iff] at hf
    have := hf u hu
    simp [hid] at this
  | some i => simp

/-- Records with other ids survive the upsert. -/
theorem mem_saveTeamList_of_ne (teams : List Team) (t u : Team)
    (hu : u ∈ teams) (hne : u.id ≠ t.id) :
    u ∈ Storage.saveTeamList teams t := by
  induction teams with
  | nil => cases hu
  | cons x xs ih =>
    by_cases hx : (x.id == t.id) = true
    · unfold Storage.saveTeamList
      rw [List.findIdx?_cons, hx]
      simp only [if_true]
      rcases List.mem_cons.mp hu with rfl | hmem
      · exact absurd (by simpa using hx) hne
      · exact List.mem_cons_of_mem _ hmem
    · have hx2 := eq_false_of_ne_true hx
      rw [saveTeamList_cons_ne x xs t hx2]
      rcases List.mem_cons.mp hu with rfl | hmem
      · exact List.mem_cons_self _ _
      · exact List.mem_cons_of_mem _ (ih hmem)

/-- C4: on an available medium, saveTeam then getTeamById returns the
saved team unchanged (lastUpdated lives on the blob, not the team), and
save is an upsert: records with other ids survive, a fresh id appends,
a matching id keeps the collection length. -/
theorem saveTeam_roundtrip (st : Storage.Store) (now now2 : Nat) (t : Team)
    (h : st.available = true) :
    Storage.getTeamById (Storage.saveTeam st now t) now2 t.id = some t ∧
    (∀ u ∈ Storage.getAllTeams st now, u.id ≠ t.id →
        u ∈ Storage.getAllTeams (Storage.saveTeam st now t) now2) ∧
    ((∀ u ∈ Storage.getAllTeams st now, u.id ≠ t.id) →
        Storage.getAllTeams (Storage.saveTeam st now t) now2
          = Storage.getAllTeams st now ++ [t]) ∧
    ((∃ u ∈ Storage.getAllTeams st now, u.id = t.id) →
        (Storage.getAllTeams (Storage.saveTeam st now t) now2).length
          = (Storage.getAllTeams st now).length) := by
  have key : Storage.getAllTeams (Storage.saveTeam st now t) now2
      = Storage.saveTeamList (Storage.getAllTeams st now) t := by
    obtain ⟨av, cell⟩ := st
    cases av
    · cases h
    · unfold Storage.saveTeam Storage.saveStorageData Storage.getAllTeams Storage.getStorageData
      simp
  refine ⟨?_, ?_, ?_, ?_⟩
  · unfold Storage.getTeamById
    rw [key]
    exact find?_saveTeamList _ t
  · intro u hu hne
    rw [key]
    exact mem_saveTeamList_of_ne _ t u hu hne
  · intro hall
    rw [key]
    exact saveTeamList_append_of_no_match _ t
      (fun u hu => beq_eq_false_iff_ne.mpr (hall u hu))
  · intro hex
    rw [key]
    exact length_saveTeamList_of_match _ t hex

/-- A team record used in store fixtures. -/
def exTeamA : Team :=
  { id := "a", name := "Alpha", dateCreated := 1, players := [], isActive := true }

/-- An available store whose blob is empty. -/
def exEmptyStore : Storage.Store :=
  { available := true, cell := Storage.Cell.blob { teams := [], lastUpdated := 0 } }

/-- Witness for C4: saving into the empty available store and reading
back returns the very team. -/
theorem saveTeam_roundtrip_witness :
    Storage.getTeamById (Storage.saveTeam exEmptyStore 3 exTeamA) 4 "a" = some exTeamA :=
  (saveTeam_roundtrip exEmptyStore 3 4 exTeamA rfl).1

/-- C6: updateTeam answers null exactly when the Store lacks the id (the
in-memory mirror plays no part in the lookup), persists and mirrors
nothing in that case, and otherwise returns the merge, saves it to the
Store and replaces the matching in-memory entries. -/
theorem updateTeam_spec (s : Ctx.CtxState) (now : Nat) (id : String) (u : PartialTeam) :
    ((Ctx.updateTeam s now id u).1 = none ↔ Storage.getTeamById s.store now id = none) ∧
    (Storage.getTeamById s.store now id = none → Ctx.updateTeam s now id u = (none, s)) ∧
    (∀ ex, Storage.getTeamById s.store now id = some ex →
      Ctx.updateTeam s now id u =
        (some (mergeTeam ex u),
         { store := Storage.saveTeam s.store now (mergeTeam ex u)
           teams := s.teams.map (fun team => if team.id == id then mergeTeam ex u else team) })) := by
  cases hg : Storage.getTeamById s.store now id with
  | none =>
    refine ⟨by simp [Ctx.updateTeam, hg], fun _ => by simp [Ctx.updateTeam, hg], ?_⟩
    intro ex hex
    cases hex
  | some ex0 =>
    refine ⟨by simp [Ctx.updateTeam, hg], ?_, ?_⟩
    · intro hnone
      cases hnone
    · intro ex hex
      injection hex with hex
      subst hex
      simp [Ctx.updateTeam, hg]

/-- An available store holding only exTeamA. -/
def exStoreA : Storage.Store :=
  { available := true, cell := Storage.Cell.blob { teams := [exTeamA], lastUpdated := 0 } }

/-- A context state mirroring exStoreA. -/
def exCtx : Ctx.CtxState := { store := exStoreA, teams := [exTeamA] }

/-- A partial update renaming the team. -/
def exPartialName : PartialTeam := { name := some "Beta" }

/-- Witness for C6: updating the stored team returns the merged record. -/
theorem updateTeam_spec_witness :
    (Ctx.updateTeam exCtx 5 "a" exPartialName).1 = some (mergeTeam exTeamA exPartialName) := by
  rw [(updateTeam_spec exCtx 5 "a" exPartialName).2.2 exTeamA (by decide)]

/-- C5 (amended): dateCreated and dateAdded survive every partial update
that does not itself carry the field; a partial carrying it overwrites
(see the counterexample), so write-once holds only for updates that do
not supply these creation stamps. -/
theorem dates_write_once :
    (∀ (s : Ctx.CtxState) (now : Nat) (id : String) (u : PartialTeam)
        (r : Team) (s2 : Ctx.CtxState) (ex : Team),
      u.dateCreated = none →
      Storage.getTeamById s.store now id = some ex →
      Ctx.updateTeam s now id u = (some r, s2) →
      r.dateCreated = ex.dateCreated) ∧
    (∀ (s : Ctx.CtxState) (now : Nat) (teamId playerId : String) (u : PartialPlayer)
        (r : Player) (s2 : Ctx.CtxState) (team : Team) (ex : Player),
      u.dateAdded = none →
      s.teams.find? (fun x => x.id == teamId) = some team →
      team.players.find? (fun q => q.id == playerId) = some ex →
      Ctx.updatePlayer s now teamId playerId u = (some r, s2) →
      r.dateAdded = ex.dateAdded) := by
  constructor
  · intro s now id u r s2 ex hu hg hupd
    unfold Ctx.updateTeam at hupd
    rw [hg] at hupd
    injection hupd with hfst _
    injection hfst with hfst
    rw [← hfst]
    show (mergeTeam ex u).dateCreated = ex.dateCreated
    unfold mergeTeam
    rw [hu]
    rfl
  · intro s now teamId playerId u r s2 team ex hu hft hfp hupd
    unfold Ctx.updatePlayer at hupd
    rw [hft] at hupd
    dsimp only at hupd
    rw [hfp] at hupd
    dsimp only at hupd
    cases hcall : Storage.updatePlayerInTeam s.store now teamId playerId (mergePlayer ex u) with
    | mk b st2 =>
      rw [hcall] at hupd
      cases b
      · dsimp only at hupd
        injection hupd with hfst _
        cases hfst
      · dsimp only at hupd
        injection hupd with hfst _
        injection hfst with hfst
        rw [← hfst]
        show (mergePlayer ex u).dateAdded = ex.dateAdded
        unfold mergePlayer
        rw [hu]
        rfl

/-- Witness for C5 (amended): renaming the stored team keeps its
dateCreated. -/
theorem dates_write_once_witness :
    (Ctx.updateTeam exCtx 5 "a" exPartialName).1.map (fun t => t.dateCreated)
      = some exTeamA.dateCreated := by
  have h1 : (Ctx.updateTeam exCtx 5 "a" exPartialName).1
      = some (mergeTeam exTeamA exPartialName) := by decide
  have h := dates_write_once.1 exCtx 5 "a" exPartialName (mergeTeam exTeamA exPartialName)
      (Ctx.updateTeam exCtx 5 "a" exPartialName).2 exTeamA rfl (by decide)
      (by rw [← h1])
  rw [h1, Option.map_some', h]

/-- A partial update that smuggles in a new dateCreated. -/
def exPartialBad : PartialTeam := { dateCreated := some 99 }

/-- Counterexample for C5: updating exTeamA (dateCreated 1) with a
partial carrying dateCreated 99 yields a team whose dateCreated is 99,
so the field is not write-once under arbitrary partial updates. -/
theorem updateTeam_dateCreated_overridden :
    (Ctx.updateTeam exCtx 5 "a" exPartialBad).1.map (fun t => t.dateCreated) = some 99 ∧
    exTeamA.dateCreated = 1 := by decide

/-- C3 (amended): deleting an id absent from both the Store and the
mirror returns success (true, not false: nothing throws on a missing
id), leaves the in-memory collection unchanged and preserves the Store's
team collection. -/
theorem deleteTeam_absent_spec (s : Ctx.CtxState) (now now2 : Nat) (id : String)
    (hstore : ∀ t ∈ Storage.getAllTeams s.store now, t.id ≠ id)
    (hmem : ∀ t ∈ s.teams, t.id ≠ id) :
    (Ctx.deleteTeam s now id).1 = true ∧
    (Ctx.deleteTeam s now id).2.teams = s.teams ∧
    Storage.getAllTeams (Ctx.deleteTeam s now id).2.store now2
      = Storage.getAllTeams s.store now := by
  refine ⟨rfl, ?_, ?_⟩
  · show s.teams.filter (fun team => !(team.id == id)) = s.teams
    exact List.filter_eq_self.mpr (fun t ht => by simp [hmem t ht])
  · show Storage.getAllTeams (Storage.deleteTeam s.store now id) now2
        = Storage.getAllTeams s.store now
    unfold Storage.deleteTeam
    dsimp only
    have hfil : (Storage.getStorageData s.store now).teams.filter (fun team => !(team.id == id))
        = (Storage.getStorageData s.store now).teams :=
      List.filter_eq_self.mpr (fun t ht => by simp [hstore t ht])
    rw [hfil]
    rcases hst : s.store with ⟨av, cell⟩
    cases av <;> cases cell <;>
      simp [Storage.getAllTeams, Storage.getStorageData, Storage.saveStorageData]

/-- Witness for C3 (amended): deleting a missing id from the example
state succeeds and changes nothing. -/
theorem deleteTeam_absent_spec_witness :
    (Ctx.deleteTeam exCtx 5 "missing").1 = true ∧
    (Ctx.deleteTeam exCtx 5 "missing").2.teams = exCtx.teams ∧
    Storage.getAllTeams (Ctx.deleteTeam exCtx 5 "missing").2.store 6
      = Storage.getAllTeams exCtx.store 5 :=
  deleteTeam_absent_spec exCtx 5 6 "missing" (by decide) (by decide)

/-- Counterexample for C3: deleting the absent id misses nothing, yet the
call reports success (true), not the failure (false) the claim expects;
the mirror stays unchanged. -/
theorem deleteTeam_missing_returns_true :
    (Ctx.deleteTeam exCtx 5 "missing").1 ≠ false ∧
    (Ctx.deleteTeam exCtx 5 "missing").2.teams = exCtx.teams := by decide

/-- The conjunction of the three filter predicates of filterPlayers, as
one pointwise test: an isActive filter is exact, a position filter
applies only when the supplied position is nonempty, a search term
applies only when nonempty and is lowercased and trimmed first. -/
def matchesFilters (filters : PlayerFilters) (p : Player) : Bool :=
  (match filters.isActive with
   | some b => p.isActive == b
   | none => true) &&
  (match filters.position with
   | some pos => (pos == "") || (p.position == some pos)
   | none => true) &&
  (match filters.searchTerm with
   | some t => (t == "") || searchTermPred (jsTrim (jsToLower t)) p
   | none => true)

/-- Two chained filters fuse into one conjunctive filter. -/
theorem filter_filter_comm {α : Type} (l : List α) (A B : α → Bool) :
    (l.filter A).filter B = l.filter (fun a => A a && B a) := by
  rw [List.filter_filter]
  exact List.filter_congr (fun a _ => by cases A a <;> cases B a <;> rfl)

/-- C8 (amended): filterPlayers keeps exactly the players passing the
AND of the supplied predicates, where an empty supplied position or
search term is ignored and the search term is lowercased and trimmed
before substring matching. -/
theorem filterPlayers_and_semantics (players : List Player) (filters : PlayerFilters) :
    filterPlayers players filters = players.filter (matchesFilters filters) := by
  rcases filters with ⟨oa, op, ot⟩
  unfold filterPlayers matchesFilters
  dsimp only
  have hA : (match oa with
      | some b => players.filter (fun p => p.isActive == b)
      | none => players)
      = players.filter (fun p =>
          (match oa with | some b => p.isActive == b | none => true)) := by
    cases oa with
    | none => simp
    | some b => rfl
  have hB : ∀ l : List Player, (match op with
      | some pos => if (pos != "") = true
          then l.filter (fun p => p.position == some pos) else l
      | none => l)
      = l.filter (fun p =>
          (match op with
           | some pos => (pos == "") || (p.position == some pos)
           | none => true)) := by
    intro l
    cases op with
    | none => simp
    | some pos =>
      dsimp only
      by_cases hp : (pos == "") = true
      · have : (pos != "") = false := by simp [bne, hp]
        rw [this]
        simp [hp]
      · have hp2 : (pos == "") = false := eq_false_of_ne_true hp
        have : (pos != "") = true := by simp [bne, hp2]
        rw [this]
        simp [hp2]
  have hC : ∀ l : List Player, (match ot with
      | some t => if (t != "") = true
          then l.filter (searchTermPred (jsTrim (jsToLower t))) else l
      | none => l)
      = l.filter (fun p =>
          (match ot with
           | some t => (t == "") || searchTermPred (jsTrim (jsToLower t)) p
           | none => true)) := by
    intro l
    cases ot with
    | none => simp
    | some t =>
      dsimp only
      by_cases hp : (t == "") = true
      · have : (t != "") = false := by simp [bne, hp]
        rw [this]
        simp [hp]
      · have hp2 : (t == "") = false := eq_false_of_ne_true hp
        have : (t != "") = true := by simp [bne, hp2]
        rw [this]
        simp [hp2]
  rw [hA, hB, hC, filter_filter_comm, filter_filter_comm]
  exact List.filter_congr (fun a _ => by
    cases oa <;> cases op <;> cases ot <;> simp [Bool.and_assoc])

/-- Modelled from the claim wording of C8: the raw search term matched
case-insensitively as a substring against name, email, position and
notes, with no trimming and no truthiness side conditions. -/
def specSearchMatches (term : String) (p : Player) : Bool :=
  jsIncludes (jsToLower p.name) (jsToLower term) ||
  (match p.email with
   | some e => jsIncludes (jsToLower e) (jsToLower term)
   | none => false) ||
  (match p.position with
   | some pos => jsIncludes (jsToLower pos) (jsToLower term)
   | none => false) ||
  (match p.notes with
   | some nt => jsIncludes (jsToLower nt) (jsToLower term)
   | none => false)

/-- A player whose name contains x but not space-x. -/
def exAx : Player := { id := "x1", name := "ax", isActive := true, dateAdded := 0 }

/-- A filter searching for space-x. -/
def exSearchFilters : PlayerFilters := { searchTerm := some " x" }

/-- Counterexample for C8: the code keeps the player named ax for the
search term space-x (it trims the term to x before matching), although
no field of the player contains space-x as a substring, so filterPlayers
does not keep exactly the players whose fields contain the raw term. -/
theorem filterPlayers_trims_counterexample :
    filterPlayers [exAx] exSearchFilters = [exAx] ∧
    specSearchMatches " x" exAx = false := by decide

/-- Player with number 7 from the sorting example. -/
def exP7 : Player :=
  { id := "s7", name := "Seven", jerseyNumber := some 7, isActive := true, dateAdded := 0 }

/-- Player without a number from the sorting example. -/
def exPU : Player :=
  { id := "sU", name := "NoNum", isActive := true, dateAdded := 0 }

/-- Player with number 3 from the sorting example. -/
def exP3 : Player :=
  { id := "s3", name := "Three", jerseyNumber := some 3, isActive := true, dateAdded := 0 }

/-- The ascending jerseyNumber comparator accepts a pair exactly when the
sentinel-padded numbers are ordered upwards. -/
theorem jerseyLe_asc (a b : Player) :
    (decide (playerComparator SortKey.jerseyNumber SortOrder.asc a b ≤ 0) = true) ↔
    a.jerseyNumber.getD 999 ≤ b.jerseyNumber.getD 999 := by
  simp [playerComparator, sortKeyCmp]

/-- The descending jerseyNumber comparator accepts a pair exactly when
the sentinel-padded numbers are ordered downwards. -/
theorem jerseyLe_desc (a b : Player) :
    (decide (playerComparator SortKey.jerseyNumber SortOrder.desc a b ≤ 0) = true) ↔
    b.jerseyNumber.getD 999 ≤ a.jerseyNumber.getD 999 := by
  simp [playerComparator, sortKeyCmp]

/-- Evaluation of the ascending sorting example. -/
theorem sortPlayers_asc_eval :
    sortPlayers [exP7, exPU, exP3] SortKey.jerseyNumber SortOrder.asc = [exP3, exP7, exPU] := by
  simp [sortPlayers, List.mergeSort, List.splitInTwo, List.merge, playerComparator, sortKeyCmp,
    exP7, exPU, exP3]

/-- Evaluation of the descending sorting example: the sentinel 999 is the
largest value, so the unnumbered player comes first. -/
theorem sortPlayers_desc_eval :
    sortPlayers [exP7, exPU, exP3] SortKey.jerseyNumber SortOrder.desc = [exPU, exP7, exP3] := by
  simp [sortPlayers, List.mergeSort, List.splitInTwo, List.merge, playerComparator, sortKeyCmp,
    exP7, exPU, exP3]

/-- C1 (amended): sorting by jerseyNumber pads a missing number with the
sentinel 999, so (for rosters whose real numbers stay below 999)
unnumbered players come after every numbered player in ascending order
and, because descending merely negates the comparator, before every
numbered player in descending order; the worked example sorts to
3,7,undefined ascending and undefined,7,3 descending. -/
theorem sortPlayers_jersey_missing_placement (players : List Player)
    (h : ∀ p ∈ players, p.jerseyNumber.getD 0 < 999) :
    ((sortPlayers players SortKey.jerseyNumber SortOrder.asc).Pairwise
        (fun a b => a.jerseyNumber = none → b.jerseyNumber = none)) ∧
    ((sortPlayers players SortKey.jerseyNumber SortOrder.desc).Pairwise
        (fun a b => b.jerseyNumber = none → a.jerseyNumber = none)) ∧
    (sortPlayers [exP7, exPU, exP3] SortKey.jerseyNumber SortOrder.asc).map
        (fun p => p.jerseyNumber) = [some 3, some 7, none] ∧
    (sortPlayers [exP7, exPU, exP3] SortKey.jerseyNumber SortOrder.desc).map
        (fun p => p.jerseyNumber) = [none, some 7, some 3] := by
  refine ⟨?_, ?_, by rw [sortPlayers_asc_eval]; rfl, by rw [sortPlayers_desc_eval]; rfl⟩
  · unfold sortPlayers
    refine List.Pairwise.imp_of_mem ?_ (List.sorted_mergeSort ?_ ?_ players)
    · intro a b ha hb hle hna
      cases hbj : b.jerseyNumber with
      | none => rfl
      | some nb =>
        exfalso
        have hle2 : a.jerseyNumber.getD 999 ≤ b.jerseyNumber.getD 999 :=
          (jerseyLe_asc a b).mp hle
        rw [hna, hbj] at hle2
        simp at hle2
        have hhb := h b (List.mem_mergeSort.mp hb)
        rw [hbj] at hhb
        simp at hhb
        omega
    · intro a b c hab hbc
      refine (jerseyLe_asc a c).mpr ?_
      have h1 := (jerseyLe_asc a b).mp hab
      have h2 := (jerseyLe_asc b c).mp hbc
      omega
    · intro a b
      rw [Bool.or_eq_true]
      rcases Int.le_total (a.jerseyNumber.getD 999) (b.jerseyNumber.getD 999) with hx | hx
      · exact Or.inl ((jerseyLe_asc a b).mpr hx)
      · exact Or.inr ((jerseyLe_asc b a).mpr hx)
  · unfold sortPlayers
    refine List.Pairwise.imp_of_mem ?_ (List.sorted_mergeSort ?_ ?_ players)
    · intro a b ha hb hle hbn
      cases haj : a.jerseyNumber with
      | none => rfl
      | some na =>
        exfalso
        have hle2 : b.jerseyNumber.getD 999 ≤ a.jerseyNumber.getD 999 :=
          (jerseyLe_desc a b).mp hle
        rw [hbn, haj] at hle2
        simp at hle2
        have hha := h a (List.mem_mergeSort.mp ha)
        rw [haj] at hha
        simp at hha
        omega
    · intro a b c hab hbc
      refine (jerseyLe_desc a c).mpr ?_
      have h1 := (jerseyLe_desc a b).mp hab
      have h2 := (jerseyLe_desc b c).mp hbc
      omega
    · intro a b
      rw [Bool.or_eq_true]
      rcases Int.le_total (a.jerseyNumber.getD 999) (b.jerseyNumber.getD 999) with hx | hx
      · exact Or.inr ((jerseyLe_desc b a).mpr hx)
      · exact Or.inl ((jerseyLe_desc a b).mpr hx)

/-- Witness for C1 (amended): on the worked example ascending output no
unnumbered player precedes a numbered one. -/
theorem sortPlayers_jersey_missing_placement_witness :
    (sortPlayers [exP7, exPU, exP3] SortKey.jerseyNumber SortOrder.asc).Pairwise
        (fun a b => a.jerseyNumber = none → b.jerseyNumber = none) :=
  (sortPlayers_jersey_missing_placement [exP7, exPU, exP3] (by decide)).1

/-- Counterexample for C1: sorted descending, the example roster puts the
player without a number first, not last as the claim states. -/
theorem sortPlayers_desc_counterexample :
    (sortPlayers [exP7, exPU, exP3] SortKey.jerseyNumber SortOrder.desc).map
        (fun p => p.jerseyNumber) = [none, some 7, some 3] ∧
    (sortPlayers [exP7, exPU, exP3] SortKey.jerseyNumber SortOrder.desc).map
        (fun p => p.jerseyNumber) ≠ [some 7, some 3, none] := by
  rw [sortPlayers_desc_eval]
  refine ⟨rfl, by decide⟩
